import Mathlib

/-!
A verification development for the PyGeodesy package: the N-vector/3-D
vector algebra core, the Vincenty ellipsoidal inverse solver, the
ellipsoid registry, and the package's import-time wiring
(`pygeodesy/__init__.py`).  The algorithmic modules are embedded from
their specification (the module sources are not part of this excerpt);
the `__init__.py` wiring (version normalization, `sys.path` fallback) is
embedded directly from the source.
-/

open Real

/-- Degrees to radians, `radians(d)`. -/
noncomputable def toRad (d : ℝ) : ℝ := d * π / 180

/-- Radians to degrees, `degrees(r)`. -/
noncomputable def toDeg (r : ℝ) : ℝ := r * 180 / π

/-- Normalization of a bearing in degrees to the interval `[0, 360)`. -/
noncomputable def norm360 (x : ℝ) : ℝ := x - 360 * ⌊x / 360⌋

/-- Two-argument arctangent `atan2(y, x)`, embedded as the argument of the
complex number with real part `x` and imaginary part `y`. -/
noncomputable def atan2 (y x : ℝ) : ℝ := Complex.arg ⟨x, y⟩

/-- Errors of the geometric core: `DegenerateInputError` (geometrically
undefined operation) and `UnknownDatumError` (registry lookup miss). -/
inductive GeodesyError where
  | degenerateInput
  | unknownDatum
  deriving DecidableEq

/-- Modelled from the spec: `Vector3D`, an immutable 3-D cartesian vector
with components x, y, z (module `vector3d`, not part of this excerpt). -/
structure Vector3D where
  x : ℝ
  y : ℝ
  z : ℝ

/-- Component-wise vector addition `add(u, v)`. -/
def Vector3D.add (u v : Vector3D) : Vector3D := ⟨u.x + v.x, u.y + v.y, u.z + v.z⟩

/-- Component-wise vector negation. -/
def Vector3D.neg (v : Vector3D) : Vector3D := ⟨-v.x, -v.y, -v.z⟩

/-- Modelled from the spec: `length(v)`, the Euclidean norm (module
`vector3d`, not part of this excerpt). -/
noncomputable def length (v : Vector3D) : ℝ := Real.sqrt (v.x ^ 2 + v.y ^ 2 + v.z ^ 2)

/-- Modelled from the spec: `normalize(v)` returns the unit vector in the
direction of `v` and fails with `DegenerateInputError` when `length(v)` is
zero (module `vector3d`, not part of this excerpt). -/
noncomputable def Vector3D.normalize (v : Vector3D) : Except GeodesyError Vector3D :=
  if length v = 0 then .error .degenerateInput
  else .ok ⟨v.x / length v, v.y / length v, v.z / length v⟩

/-- Modelled from the spec: `midpoint(n1, n2)` is `normalize(n1 + n2)`,
failing with `DegenerateInputError` when the sum is the zero vector
(module `nvector`, not part of this excerpt). -/
noncomputable def NVector.midpoint (n1 n2 : Vector3D) : Except GeodesyError Vector3D :=
  Vector3D.normalize (Vector3D.add n1 n2)

/-- Modelled from the spec: `toNVector(lat, lon)` (degrees) is the unit
vector `(cos(lat)cos(lon), cos(lat)sin(lon), sin(lat))` (module
`nvector`, not part of this excerpt). -/
noncomputable def toNVector (lat lon : ℝ) : Vector3D :=
  ⟨Real.cos (toRad lat) * Real.cos (toRad lon),
   Real.cos (toRad lat) * Real.sin (toRad lon),
   Real.sin (toRad lat)⟩

/-- Modelled from the spec: `toLatLon(v)` recovers latitude and longitude
in degrees via `lat = atan2(z, sqrt(x^2+y^2))`, `lon = atan2(y, x)`
(module `nvector`, not part of this excerpt). -/
noncomputable def toLatLon (v : Vector3D) : ℝ × ℝ :=
  (toDeg (atan2 v.z (Real.sqrt (v.x ^ 2 + v.y ^ 2))), toDeg (atan2 v.y v.x))

/-- Modelled from the spec: an ellipsoid registry record with semi-major
axis `a` and flattening `f` (module `datum`, not part of this excerpt).
Rational parameters, exactly as the registry's decimal constants. -/
structure RegEllipsoid where
  a : ℚ
  f : ℚ
  deriving DecidableEq

/-- Modelled from the spec: the registry of standard ellipsoids populated
once at process start (WGS84, GRS80, Airy1830, ...); read-only, keyed by
exact name (module `datum`, not part of this excerpt). -/
def Ellipsoids : List (String × RegEllipsoid) :=
  [("WGS84", ⟨6378137, 1000000000 / 298257223563⟩),
   ("GRS80", ⟨6378137, 1000000000 / 298257222101⟩),
   ("Airy1830", ⟨6377563396 / 1000, 10000000 / 2993249646⟩)]

/-- Modelled from the spec: case-sensitive exact-name registry lookup,
raising `UnknownDatumError` when the name is absent (module `datum`, not
part of this excerpt). -/
def lookupEllipsoid (name : String) : Except GeodesyError RegEllipsoid :=
  match Ellipsoids.lookup name with
  | some e => .ok e
  | none => .error .unknownDatum

/-- Diagnostic reason codes carried by `VincentyError`: the inverse
iteration did not converge, or the antipodal case left λ indeterminate. -/
inductive VincentyReason where
  | noConvergence
  | antipodal
  deriving DecidableEq

/-- Modelled from the spec: `VincentyError`, a subtype carrying a reason
code, raised by the inverse solver (module `ellipsoidalVincenty`;
re-exported at line 147 of `pygeodesy/__init__.py`). -/
structure VincentyError where
  reason : VincentyReason
  deriving DecidableEq

/-- Modelled from the spec: an ellipsoid with semi-major axis `a` (meters)
and flattening `f`, as consumed by the Vincenty solver. -/
structure Ellipsoid where
  a : ℝ
  f : ℝ

/-- Modelled from the spec: a latitude/longitude point in decimal degrees. -/
structure LatLon where
  lat : ℝ
  lon : ℝ

/-- Result of the Vincenty inverse: distance in meters and the initial and
final bearings in degrees, absent (`none`) when undefined. -/
structure InverseResult where
  distance : ℝ
  initialBearing : Option ℝ
  finalBearing : Option ℝ

/-- Squared sine of the angular separation σ on the auxiliary sphere,
`sin²σ = (cosU2 sinλ)² + (cosU1 sinU2 − sinU1 cosU2 cosλ)²`. -/
noncomputable def sin2sig (sU1 cU1 sU2 cU2 lam : ℝ) : ℝ :=
  (cU2 * Real.sin lam) ^ 2 + (cU1 * sU2 - sU1 * cU2 * Real.cos lam) ^ 2

/-- Sine of σ, the square root of `sin2sig`. -/
noncomputable def sinsig (sU1 cU1 sU2 cU2 lam : ℝ) : ℝ :=
  Real.sqrt (sin2sig sU1 cU1 sU2 cU2 lam)

/-- Cosine of σ, `sinU1 sinU2 + cosU1 cosU2 cosλ`. -/
noncomputable def cossig (sU1 cU1 sU2 cU2 lam : ℝ) : ℝ :=
  sU1 * sU2 + cU1 * cU2 * Real.cos lam

/-- Angular separation `σ = atan2(sinσ, cosσ)` on the auxiliary sphere. -/
noncomputable def sigma (sU1 cU1 sU2 cU2 lam : ℝ) : ℝ :=
  atan2 (sinsig sU1 cU1 sU2 cU2 lam) (cossig sU1 cU1 sU2 cU2 lam)

/-- Sine of the azimuth α of the geodesic at the equator,
`sinα = cosU1 cosU2 sinλ / sinσ`. -/
noncomputable def sinalp (sU1 cU1 sU2 cU2 lam : ℝ) : ℝ :=
  cU1 * cU2 * Real.sin lam / sinsig sU1 cU1 sU2 cU2 lam

/-- Squared cosine of α, `cos²α = 1 − sin²α`. -/
noncomputable def cos2alp (sU1 cU1 sU2 cU2 lam : ℝ) : ℝ :=
  1 - sinalp sU1 cU1 sU2 cU2 lam ^ 2

/-- Cosine of twice the angular separation of the midpoint,
`cos2σm = cosσ − 2 sinU1 sinU2 / cos²α`. -/
noncomputable def cos2sigm (sU1 cU1 sU2 cU2 lam : ℝ) : ℝ :=
  cossig sU1 cU1 sU2 cU2 lam - 2 * sU1 * sU2 / cos2alp sU1 cU1 sU2 cU2 lam

/-- Vincenty's coefficient `C = f/16 cos²α (4 + f(4 − 3cos²α))`. -/
noncomputable def coefC (f c2a : ℝ) : ℝ :=
  f / 16 * c2a * (4 + f * (4 - 3 * c2a))

/-- One update of the classic trigonometric system for λ, the difference
in longitude on the auxiliary sphere:
`λ' = L + (1−C) f sinα (σ + C sinσ (cos2σm + C cosσ (−1 + 2 cos²2σm)))`. -/
noncomputable def lamStep (f sU1 cU1 sU2 cU2 L lam : ℝ) : ℝ :=
  L + (1 - coefC f (cos2alp sU1 cU1 sU2 cU2 lam)) * f * sinalp sU1 cU1 sU2 cU2 lam *
    (sigma sU1 cU1 sU2 cU2 lam + coefC f (cos2alp sU1 cU1 sU2 cU2 lam) *
      sinsig sU1 cU1 sU2 cU2 lam * (cos2sigm sU1 cU1 sU2 cU2 lam +
        coefC f (cos2alp sU1 cU1 sU2 cU2 lam) * cossig sU1 cU1 sU2 cU2 lam *
          (-1 + 2 * cos2sigm sU1 cU1 sU2 cU2 lam ^ 2)))

/-- Convergence tolerance of the inverse iteration, 1e-12 radians. -/
noncomputable def vtol : ℝ := 1 / 10 ^ 12

/-- Iteration cap of the inverse convergence loop. -/
def vcap : Nat := 100

/-- Modelled from the spec: the bounded Vincenty inverse convergence loop
(module `ellipsoidalVincenty`, not part of this excerpt).  Updates λ until
successive values differ by less than `vtol` or the fuel is exhausted;
returns the final λ, a convergence flag and the number of λ updates made. -/
noncomputable def iterLam (f sU1 cU1 sU2 cU2 L : ℝ) : Nat → ℝ → ℝ × Bool × Nat
  | 0, lam => (lam, false, 0)
  | n + 1, lam =>
    let lam' := lamStep f sU1 cU1 sU2 cU2 L lam
    if |lam' - lam| < vtol then (lam', true, 1)
    else
      let r := iterLam f sU1 cU1 sU2 cU2 L n lam'
      (r.1, r.2.1, r.2.2 + 1)

/-- Squared auxiliary parameter `u² = cos²α (a² − b²) / b²` with
`b = a(1 − f)`. -/
noncomputable def usq (a f c2a : ℝ) : ℝ :=
  c2a * (a ^ 2 - (a * (1 - f)) ^ 2) / (a * (1 - f)) ^ 2

/-- Vincenty's series coefficient
`A = 1 + u²/16384 (4096 + u² (−768 + u² (320 − 175 u²)))`. -/
noncomputable def bigA (u2 : ℝ) : ℝ :=
  1 + u2 / 16384 * (4096 + u2 * (-768 + u2 * (320 - 175 * u2)))

/-- Vincenty's series coefficient
`B = u²/1024 (256 + u² (−128 + u² (74 − 47 u²)))`. -/
noncomputable def bigB (u2 : ℝ) : ℝ :=
  u2 / 1024 * (256 + u2 * (-128 + u2 * (74 - 47 * u2)))

/-- Vincenty's correction term Δσ. -/
noncomputable def deltaSig (bB ssig csig ss2 c2sm : ℝ) : ℝ :=
  bB * ssig * (c2sm + bB / 4 * (csig * (-1 + 2 * c2sm ^ 2) -
    bB / 6 * c2sm * (-3 + 4 * ss2) * (-3 + 4 * c2sm ^ 2)))

/-- Geodesic distance `s = b A (σ − Δσ)` from the converged λ. -/
noncomputable def invDistance (a f sU1 cU1 sU2 cU2 lam : ℝ) : ℝ :=
  a * (1 - f) * bigA (usq a f (cos2alp sU1 cU1 sU2 cU2 lam)) *
    (sigma sU1 cU1 sU2 cU2 lam -
      deltaSig (bigB (usq a f (cos2alp sU1 cU1 sU2 cU2 lam)))
        (sinsig sU1 cU1 sU2 cU2 lam) (cossig sU1 cU1 sU2 cU2 lam)
        (sin2sig sU1 cU1 sU2 cU2 lam) (cos2sigm sU1 cU1 sU2 cU2 lam))

/-- Initial bearing (radians),
`α1 = atan2(cosU2 sinλ, cosU1 sinU2 − sinU1 cosU2 cosλ)`. -/
noncomputable def alpha1 (sU1 cU1 sU2 cU2 lam : ℝ) : ℝ :=
  atan2 (cU2 * Real.sin lam) (cU1 * sU2 - sU1 * cU2 * Real.cos lam)

/-- Final bearing (radians),
`α2 = atan2(cosU1 sinλ, cosU1 sinU2 cosλ − sinU1 cosU2)`. -/
noncomputable def alpha2 (sU1 cU1 sU2 cU2 lam : ℝ) : ℝ :=
  atan2 (cU1 * Real.sin lam) (cU1 * sU2 * Real.cos lam - sU1 * cU2)

/-- Closed-form tail of the inverse solver: distance `s = b A (σ − Δσ)`
and the initial and final bearings from the converged λ, bearings
converted to degrees and normalized to `[0, 360)`. -/
noncomputable def invResult (a f sU1 cU1 sU2 cU2 lam : ℝ) : InverseResult :=
  ⟨invDistance a f sU1 cU1 sU2 cU2 lam,
    some (norm360 (toDeg (alpha1 sU1 cU1 sU2 cU2 lam))),
    some (norm360 (toDeg (alpha2 sU1 cU1 sU2 cU2 lam)))⟩

/-- Core of the inverse solver after latitude reduction: runs the bounded
λ loop from `L`; non-convergence raises `VincentyError` with reason
`noConvergence`, an indeterminate λ (`sin σ = 0`, the antipodal
degeneracy) raises reason `antipodal`, otherwise the closed-form result. -/
noncomputable def invAux (a f U1 U2 L : ℝ) : Except VincentyError InverseResult :=
  let sU1 := Real.sin U1
  let cU1 := Real.cos U1
  let sU2 := Real.sin U2
  let cU2 := Real.cos U2
  let r := iterLam f sU1 cU1 sU2 cU2 L vcap L
  if r.2.1 = false then .error ⟨.noConvergence⟩
  else if sin2sig sU1 cU1 sU2 cU2 r.1 = 0 then .error ⟨.antipodal⟩
  else .ok (invResult a f sU1 cU1 sU2 cU2 r.1)

/-- Reduced latitude `U = atan((1 − f) tan φ)`. -/
noncomputable def reducedLat (f phi : ℝ) : ℝ :=
  Real.arctan ((1 - f) * Real.tan phi)

/-- Modelled from the spec: the Vincenty inverse solver (module
`ellipsoidalVincenty`, not part of this excerpt).  Coincident start/end
points short-circuit before any iteration to distance 0 with undefined
(`none`) bearings; otherwise the latitudes are reduced by the flattening
and the bounded λ iteration runs from `L = lon2 − lon1` in radians. -/
noncomputable def inverse (E : Ellipsoid) (p1 p2 : LatLon) :
    Except VincentyError InverseResult :=
  if p1.lat = p2.lat ∧ p1.lon = p2.lon then .ok ⟨0, none, none⟩
  else
    invAux E.a E.f (reducedLat E.f (toRad p1.lat)) (reducedLat E.f (toRad p2.lat))
      (toRad (p2.lon - p1.lon))

/-- Source line 156 of `pygeodesy/__init__.py`: the raw version string. -/
def versionRaw : String := "17.06.12"

/-- Splitting a character list on the dot separator, the semantics of
`'17.06.12'.split('.')` at line 159 of `pygeodesy/__init__.py`. -/
def splitDots : List Char → List (List Char)
  | [] => [[]]
  | c :: cs =>
    match splitDots cs with
    | [] => [[]]
    | g :: gs => if c = '.' then [] :: g :: gs else (c :: g) :: gs

/-- Decimal digit-string to `Nat`, the semantics of Python `int` on the
dot-separated components at line 159 of `pygeodesy/__init__.py` (each
component is a plain decimal digit string). -/
def digitsToNat (cs : List Char) : Nat :=
  cs.foldl (fun n c => 10 * n + (c.toNat - 48)) 0

/-- Source line 159 of `pygeodesy/__init__.py`: the exposed version,
`'.'.join(map(str, map(int, __version__.split('.'))))`. -/
def version : String :=
  String.intercalate "."
    (((splitDots versionRaw.toList).map digitsToNat).map (fun n => toString n))

/-- Interpreter state touched by the package's import-time wiring: the
module search path `sys.path`. -/
structure PyState where
  sysPath : List String

/-- Source lines 127-135 of `pygeodesy/__init__.py`: when the sibling
module `bases` is not importable, the package directory
(`os.path.dirname(__file__)`) is inserted at position 0 of `sys.path`;
when it is importable, the state is untouched. -/
def importPathFix (dir : String) (basesImportable : Bool) (s : PyState) : PyState :=
  if basesImportable then s else ⟨s.sysPath.insertIdx 0 dir⟩

/-- Steps of the package's import-time initialization, in order. -/
inductive InitStep where
  | insertSysPath (dir : String)
  | importModule (m : String)
  | defineVersion
  deriving DecidableEq

/-- Sub-modules imported by `pygeodesy/__init__.py` after the `sys.path`
fallback (lines 138-181). -/
def submoduleImports : List String :=
  ["ellipsoidalNvector", "ellipsoidalVincenty", "sphericalNvector",
   "sphericalTrigonometry", "nvector", "vector3d", "geohash",
   "bases", "datum", "dms", "lcc", "mgrs", "osgr", "simplify", "utils", "utm"]

/-- Trace of the import-time side effects of `pygeodesy/__init__.py`: the
conditional `sys.path` insertion happens first, before any sub-module is
loaded and before any other computation. -/
def initTrace (dir : String) (basesImportable : Bool) : List InitStep :=
  (if basesImportable then [] else [InitStep.insertSysPath dir]) ++
    submoduleImports.map InitStep.importModule ++ [InitStep.defineVersion]

/-- Helper: the Euclidean norm is nonnegative. -/
lemma length_nonneg (v : Vector3D) : 0 ≤ length v := Real.sqrt_nonneg _

/-- Helper: normalizing a vector of nonzero length succeeds and yields a
vector of Euclidean length one. -/
lemma normalize_ok (v : Vector3D) (h : length v ≠ 0) :
    Vector3D.normalize v = .ok ⟨v.x / length v, v.y / length v, v.z / length v⟩ ∧
    length ⟨v.x / length v, v.y / length v, v.z / length v⟩ = 1 := by
  constructor
  · simp [Vector3D.normalize, h]
  · have hs : (length v) ^ 2 = v.x ^ 2 + v.y ^ 2 + v.z ^ 2 :=
      Real.sq_sqrt (by positivity)
    show Real.sqrt ((v.x / length v) ^ 2 + (v.y / length v) ^ 2 + (v.z / length v) ^ 2) = 1
    rw [show (v.x / length v) ^ 2 + (v.y / length v) ^ 2 + (v.z / length v) ^ 2 =
        (v.x ^ 2 + v.y ^ 2 + v.z ^ 2) / (length v) ^ 2 by ring, ← hs,
      div_self (pow_ne_zero 2 h), Real.sqrt_one]

/-- C5: for every vector of nonzero length, `normalize` returns a vector of
Euclidean length exactly 1; for the zero-length vector it fails with
`DegenerateInputError` instead of returning a result. -/
theorem normalize_unit_or_degenerate (v : Vector3D) :
    (length v = 0 ∧ Vector3D.normalize v = .error .degenerateInput) ∨
    (0 < length v ∧ ∃ u, Vector3D.normalize v = .ok u ∧ length u = 1) := by
  by_cases h : length v = 0
  · exact Or.inl ⟨h, by simp [Vector3D.normalize, h]⟩
  · exact Or.inr ⟨lt_of_le_of_ne (length_nonneg v) (Ne.symm h),
      ⟨_, (normalize_ok v h).1, (normalize_ok v h).2⟩⟩

/-- C6: for unit N-vectors, `midpoint` is the normalized sum, a unit
vector, when the inputs are not antipodal; for antipodal inputs (the sum
is the zero vector) it fails with `DegenerateInputError`. -/
theorem midpoint_unit_or_antipodal (n1 n2 : Vector3D)
    (h1 : length n1 = 1) (h2 : length n2 = 1) :
    (n2 = Vector3D.neg n1 ∧ NVector.midpoint n1 n2 = .error .degenerateInput) ∨
    (n2 ≠ Vector3D.neg n1 ∧ ∃ u, NVector.midpoint n1 n2 = .ok u ∧ length u = 1) := by
  by_cases hm : n2 = Vector3D.neg n1
  · left
    refine ⟨hm, ?_⟩
    subst hm
    have hadd : Vector3D.add n1 (Vector3D.neg n1) = ⟨0, 0, 0⟩ := by
      simp [Vector3D.add, Vector3D.neg]
    rw [NVector.midpoint, hadd]
    simp [Vector3D.normalize, length]
  · right
    refine ⟨hm, ?_⟩
    have hz : length (Vector3D.add n1 n2) ≠ 0 := by
      intro h0
      apply hm
      obtain ⟨a, b, c⟩ := n1
      obtain ⟨d, e, g⟩ := n2
      simp only [Vector3D.add, length] at h0
      rw [Real.sqrt_eq_zero (by positivity)] at h0
      have ha : d = -a := by nlinarith [sq_nonneg (a + d), sq_nonneg (b + e), sq_nonneg (c + g)]
      have hb : e = -b := by nlinarith [sq_nonneg (a + d), sq_nonneg (b + e), sq_nonneg (c + g)]
      have hc : g = -c := by nlinarith [sq_nonneg (a + d), sq_nonneg (b + e), sq_nonneg (c + g)]
      simp [Vector3D.neg, ha, hb, hc]
    exact ⟨_, (normalize_ok _ hz).1, (normalize_ok _ hz).2⟩

/-- Witness for C6 at the concrete unit vectors (1,0,0) and (0,1,0). -/
theorem midpoint_unit_or_antipodal_witness :
    length ⟨1, 0, 0⟩ = 1 ∧ length ⟨0, 1, 0⟩ = 1 ∧
    ((⟨0, 1, 0⟩ = Vector3D.neg ⟨1, 0, 0⟩ ∧
        NVector.midpoint ⟨1, 0, 0⟩ ⟨0, 1, 0⟩ = .error .degenerateInput) ∨
     (⟨0, 1, 0⟩ ≠ Vector3D.neg ⟨1, 0, 0⟩ ∧
        ∃ u, NVector.midpoint ⟨1, 0, 0⟩ ⟨0, 1, 0⟩ = .ok u ∧ length u = 1)) := by
  have l1 : length ⟨1, 0, 0⟩ = 1 := by simp [length]
  have l2 : length ⟨0, 1, 0⟩ = 1 := by simp [length]
  exact ⟨l1, l2, midpoint_unit_or_antipodal _ _ l1 l2⟩

/-- Helper: a key absent from the association list's keys looks up to none. -/
lemma lookup_eq_none_of_not_mem {β : Type} (l : List (String × β)) (n : String)
    (h : n ∉ l.map Prod.fst) : l.lookup n = none := by
  induction l with
  | nil => rfl
  | cons p t ih =>
    obtain ⟨k, v⟩ := p
    simp only [List.map_cons, List.mem_cons, not_or] at h
    have hk : (n == k) = false := beq_eq_false_iff_ne.mpr h.1
    simp [List.lookup, hk, ih h.2]

/-- C8: looking up a name absent from the ellipsoid registry raises
`UnknownDatumError`; lookup is a case-sensitive exact-name match, and the
registered name WGS84 is found with its parameters. -/
theorem registry_miss_raises_unknown (n : String) (h : n ∉ Ellipsoids.map Prod.fst) :
    lookupEllipsoid n = .error .unknownDatum ∧
    lookupEllipsoid "WGS84" = .ok ⟨6378137, 1000000000 / 298257223563⟩ := by
  refine ⟨?_, by rfl⟩
  simp [lookupEllipsoid, lookup_eq_none_of_not_mem _ _ h]

/-- Witness for C8: the lowercase name wgs84 is not a key (lookup is
case-sensitive) and raises `UnknownDatumError`, while WGS84 is found. -/
theorem registry_miss_witness :
    "wgs84" ∉ Ellipsoids.map Prod.fst ∧
    (lookupEllipsoid "wgs84" = .error .unknownDatum ∧
     lookupEllipsoid "WGS84" = .ok ⟨6378137, 1000000000 / 298257223563⟩) := by
  have h : "wgs84" ∉ Ellipsoids.map Prod.fst := by decide
  exact ⟨h, registry_miss_raises_unknown _ h⟩

/-- C9: the exposed `version` string re-renders each dot-separated
component of `__version__` as an integer without leading zeros: for
`__version__ = '17.06.12'` it is `'17.6.12'`, not the raw string. -/
theorem version_drops_leading_zeros :
    version = "17.6.12" ∧ version ≠ versionRaw := by
  exact ⟨by rfl, by decide⟩

/-- C10: when the sibling module `bases` is not importable at load time,
the package import inserts the package directory at position 0 of
`sys.path`, before any sub-module is loaded and before any other
computation; when `bases` is importable, the interpreter state is
untouched. -/
theorem import_inserts_sys_path (dir : String) (s : PyState) :
    (importPathFix dir false s).sysPath = dir :: s.sysPath ∧
    importPathFix dir true s = s ∧
    (initTrace dir false).head? = some (InitStep.insertSysPath dir) := by
  refine ⟨?_, rfl, rfl⟩
  simp [importPathFix, List.insertIdx_zero]

/-- C3: the Vincenty inverse between coincident points short-circuits to
distance 0 with both bearings undefined (`none`, not 0 and not a number). -/
theorem inverse_coincident_zero (E : Ellipsoid) (p1 p2 : LatLon) (h : p1 = p2) :
    inverse E p1 p2 = .ok ⟨0, none, none⟩ := by
  subst h
  simp [inverse]

/-- Witness for C3 at a concrete coincident pair. -/
theorem inverse_coincident_witness :
    inverse ⟨6378137, 1000000000 / 298257223563⟩ ⟨50, 6⟩ ⟨50, 6⟩ = .ok ⟨0, none, none⟩ :=
  inverse_coincident_zero _ _ _ rfl

/-- Helper: `atan2(sin θ, cos θ) = θ` on the principal interval. -/
lemma atan2_cos_sin {θ : ℝ} (hθ : θ ∈ Set.Ioc (-π) π) :
    atan2 (Real.sin θ) (Real.cos θ) = θ := by
  rw [atan2, Complex.mk_eq_add_mul_I, Complex.ofReal_cos, Complex.ofReal_sin]
  exact Complex.arg_cos_add_sin_mul_I hθ

/-- Helper: `atan2` is invariant under scaling both arguments by a
positive factor. -/
lemma atan2_smul {r y x : ℝ} (hr : 0 < r) : atan2 (r * y) (r * x) = atan2 y x := by
  rw [atan2, atan2]
  have hmul : (⟨r * x, r * y⟩ : ℂ) = (r : ℂ) * ⟨x, y⟩ := by
    apply Complex.ext <;> simp
  rw [hmul, Complex.arg_real_mul _ hr]

/-- Helper: degree/radian conversion round-trips. -/
lemma toDeg_toRad (d : ℝ) : toDeg (toRad d) = d := by
  rw [toDeg, toRad]
  field_simp

/-- C1 amended: for latitudes strictly between the poles and longitudes in
(-180, 180], the N-vector round trip is exact. -/
theorem toLatLon_toNVector_roundtrip (lat lon : ℝ) (h1 : -90 < lat) (h2 : lat < 90)
    (h3 : -180 < lon) (h4 : lon ≤ 180) :
    toLatLon (toNVector lat lon) = (lat, lon) := by
  have hpi := Real.pi_pos
  have hφl : -(π / 2) < toRad lat := by
    rw [toRad]; nlinarith [mul_pos (by linarith : (0:ℝ) < lat + 90) hpi]
  have hφr : toRad lat < π / 2 := by
    rw [toRad]; nlinarith [mul_pos (by linarith : (0:ℝ) < 90 - lat) hpi]
  have hℓl : -π < toRad lon := by
    rw [toRad]; nlinarith [mul_pos (by linarith : (0:ℝ) < lon + 180) hpi]
  have hℓr : toRad lon ≤ π := by
    rw [toRad]; nlinarith [mul_nonneg (by linarith : (0:ℝ) ≤ 180 - lon) hpi.le]
  have hcos : 0 < Real.cos (toRad lat) := Real.cos_pos_of_mem_Ioo ⟨hφl, hφr⟩
  simp only [toLatLon, toNVector]
  have hxy : (Real.cos (toRad lat) * Real.cos (toRad lon)) ^ 2 +
      (Real.cos (toRad lat) * Real.sin (toRad lon)) ^ 2 = Real.cos (toRad lat) ^ 2 := by
    linear_combination (Real.cos (toRad lat)) ^ 2 * Real.sin_sq_add_cos_sq (toRad lon)
  rw [hxy, Real.sqrt_sq hcos.le,
    atan2_cos_sin ⟨by linarith, by linarith⟩,
    atan2_smul hcos, atan2_cos_sin ⟨hℓl, hℓr⟩, toDeg_toRad, toDeg_toRad]

/-- Witness for the amended C1 at latitude 0, longitude 0. -/
theorem toLatLon_toNVector_roundtrip_witness :
    (-90 : ℝ) < 0 ∧ (0 : ℝ) < 90 ∧ (-180 : ℝ) < 0 ∧ (0 : ℝ) ≤ 180 ∧
    toLatLon (toNVector 0 0) = (0, 0) := by
  refine ⟨by norm_num, by norm_num, by norm_num, by norm_num, ?_⟩
  exact toLatLon_toNVector_roundtrip 0 0 (by norm_num) (by norm_num) (by norm_num) (by norm_num)

/-- Counterexample to C1 as stated: at the north pole with longitude 90 the
round trip returns longitude 0, an error of 90 degrees, far outside 1e-9. -/
theorem toLatLon_pole_loses_longitude :
    toLatLon (toNVector 90 90) = (90, 0) ∧
    ¬(|(toLatLon (toNVector 90 90)).2 - 90| ≤ 1 / 10 ^ 9) := by
  have hpi := Real.pi_pos
  have h90 : toRad 90 = π / 2 := by rw [toRad]; ring
  have hn : toNVector 90 90 = ⟨0, 0, 1⟩ := by
    simp [toNVector, h90, Real.cos_pi_div_two, Real.sin_pi_div_two]
  have hI : (⟨0, 1⟩ : ℂ) = Complex.I := by apply Complex.ext <;> simp
  have h0 : (⟨0, 0⟩ : ℂ) = 0 := by apply Complex.ext <;> simp
  have hll : toLatLon (⟨0, 0, 1⟩ : Vector3D) = (90, 0) := by
    simp only [toLatLon, atan2]
    norm_num [hI, h0, Complex.arg_I, Complex.arg_zero, toDeg]
    field_simp
    ring
  rw [hn, hll]
  norm_num

/-- Helper: the λ loop makes at most `n` updates in `n` units of fuel, and
either its final value came from an update within tolerance of its
predecessor, or the fuel was exhausted with the count equal to the cap. -/
lemma iterLam_spec (f sU1 cU1 sU2 cU2 L : ℝ) (n : Nat) (lam : ℝ) :
    (iterLam f sU1 cU1 sU2 cU2 L n lam).2.2 ≤ n ∧
      ((∃ mu, (iterLam f sU1 cU1 sU2 cU2 L n lam).1 = lamStep f sU1 cU1 sU2 cU2 L mu ∧
          |(iterLam f sU1 cU1 sU2 cU2 L n lam).1 - mu| < vtol) ∨
        (iterLam f sU1 cU1 sU2 cU2 L n lam).2.2 = n) := by
  induction n generalizing lam with
  | zero => exact ⟨le_refl 0, Or.inr rfl⟩
  | succ n ih =>
    rw [iterLam]
    by_cases h : |lamStep f sU1 cU1 sU2 cU2 L lam - lam| < vtol
    · simp only [if_pos h]
      exact ⟨by norm_num, Or.inl ⟨lam, rfl, h⟩⟩
    · simp only [if_neg h]
      obtain ⟨h1, h2⟩ := ih (lamStep f sU1 cU1 sU2 cU2 L lam)
      refine ⟨by simpa using Nat.succ_le_succ h1, ?_⟩
      rcases h2 with h2 | h2
      · exact Or.inl h2
      · exact Or.inr (by simp [h2])

/-- C7: the Vincenty inverse convergence loop always terminates: with the
fixed cap `vcap = 100` it performs at most 100 λ updates, and it stops
early only when successive λ values differ by less than the fixed
tolerance `vtol = 1e-12` radians, otherwise the cap is reached. -/
theorem inverse_loop_terminates (f sU1 cU1 sU2 cU2 L lam : ℝ) :
    (iterLam f sU1 cU1 sU2 cU2 L vcap lam).2.2 ≤ vcap ∧
      ((∃ mu, (iterLam f sU1 cU1 sU2 cU2 L vcap lam).1 = lamStep f sU1 cU1 sU2 cU2 L mu ∧
          |(iterLam f sU1 cU1 sU2 cU2 L vcap lam).1 - mu| < vtol) ∨
        (iterLam f sU1 cU1 sU2 cU2 L vcap lam).2.2 = vcap) :=
  iterLam_spec f sU1 cU1 sU2 cU2 L vcap lam

/-- Helper: on a sphere (flattening 0) the λ update is the constant `L`. -/
lemma lamStep_sphere (sU1 cU1 sU2 cU2 L lam : ℝ) :
    lamStep 0 sU1 cU1 sU2 cU2 L lam = L := by
  rw [lamStep]
  ring

/-- Helper: on a sphere the λ loop converges on its first iteration. -/
lemma iterLam_sphere (sU1 cU1 sU2 cU2 L : ℝ) (n : Nat) :
    iterLam 0 sU1 cU1 sU2 cU2 L (n + 1) L = (L, true, 1) := by
  rw [iterLam]
  simp [lamStep_sphere, vtol]

/-- Helper: degree-to-radian conversion is odd. -/
lemma toRad_neg (d : ℝ) : toRad (-d) = -toRad d := by
  rw [toRad, toRad]
  ring

/-- Helper: the reduced latitude is odd in the geodetic latitude. -/
lemma reducedLat_neg (f phi : ℝ) : reducedLat f (-phi) = -reducedLat f phi := by
  rw [reducedLat, reducedLat, Real.tan_neg, mul_neg, Real.arctan_neg]

/-- C2: the inverse between exact antipodal points on a sphere (f = 0)
raises `VincentyError` with the `antipodal` reason code, a code distinct
from `noConvergence` (coincident points are instead short-circuited to a
successful zero distance before the iteration). -/
theorem inverse_antipodal_sphere (E : Ellipsoid) (p1 p2 : LatLon)
    (hf : E.f = 0) (hlat : p2.lat = -p1.lat) (hlon : p2.lon = p1.lon + 180) :
    inverse E p1 p2 = .error ⟨.antipodal⟩ ∧
    VincentyReason.antipodal ≠ VincentyReason.noConvergence := by
  refine ⟨?_, by decide⟩
  have hne : ¬(p1.lat = p2.lat ∧ p1.lon = p2.lon) := by
    rintro ⟨-, h⟩
    rw [hlon] at h
    linarith
  rw [inverse, if_neg hne, hf, hlat, hlon]
  have hL : toRad (p1.lon + 180 - p1.lon) = π := by
    rw [show p1.lon + 180 - p1.lon = 180 by ring, toRad]
    ring
  rw [hL, toRad_neg, reducedLat_neg]
  rw [invAux]
  have hcap : vcap = 99 + 1 := rfl
  rw [Real.sin_neg, Real.cos_neg, hcap, iterLam_sphere]
  have hss : sin2sig (Real.sin (reducedLat 0 (toRad p1.lat)))
      (Real.cos (reducedLat 0 (toRad p1.lat)))
      (-Real.sin (reducedLat 0 (toRad p1.lat)))
      (Real.cos (reducedLat 0 (toRad p1.lat))) π = 0 := by
    rw [sin2sig, Real.sin_pi, Real.cos_pi]
    ring
  simp [hss]

/-- Witness for C2 at a concrete antipodal pair on the unit sphere. -/
theorem inverse_antipodal_sphere_witness :
    inverse ⟨1, 0⟩ ⟨30, 10⟩ ⟨-30, 190⟩ = .error ⟨.antipodal⟩ ∧
    VincentyReason.antipodal ≠ VincentyReason.noConvergence :=
  inverse_antipodal_sphere ⟨1, 0⟩ ⟨30, 10⟩ ⟨-30, 190⟩ rfl (by norm_num) (by norm_num)

/-- Helper: `sin²σ` is invariant under swapping the endpoints and negating λ. -/
lemma sin2sig_swap (U1 U2 lam : ℝ) :
    sin2sig (Real.sin U2) (Real.cos U2) (Real.sin U1) (Real.cos U1) (-lam) =
      sin2sig (Real.sin U1) (Real.cos U1) (Real.sin U2) (Real.cos U2) lam := by
  rw [sin2sig, sin2sig, Real.sin_neg, Real.cos_neg]
  linear_combination (Real.cos U1 ^ 2 - Real.cos U2 ^ 2) * Real.sin_sq_add_cos_sq lam +
    (Real.cos U2 ^ 2 * (1 - Real.cos lam ^ 2)) * Real.sin_sq_add_cos_sq U1 -
    (Real.cos U1 ^ 2 * (1 - Real.cos lam ^ 2)) * Real.sin_sq_add_cos_sq U2

/-- Helper: `cosσ` is invariant under swapping the endpoints and negating λ. -/
lemma cossig_swap (U1 U2 lam : ℝ) :
    cossig (Real.sin U2) (Real.cos U2) (Real.sin U1) (Real.cos U1) (-lam) =
      cossig (Real.sin U1) (Real.cos U1) (Real.sin U2) (Real.cos U2) lam := by
  rw [cossig, cossig, Real.cos_neg]
  ring

/-- Helper: `sinσ` is invariant under swapping the endpoints and negating λ. -/
lemma sinsig_swap (U1 U2 lam : ℝ) :
    sinsig (Real.sin U2) (Real.cos U2) (Real.sin U1) (Real.cos U1) (-lam) =
      sinsig (Real.sin U1) (Real.cos U1) (Real.sin U2) (Real.cos U2) lam := by
  rw [sinsig, sinsig, sin2sig_swap]

/-- Helper: σ is invariant under swapping the endpoints and negating λ. -/
lemma sigma_swap (U1 U2 lam : ℝ) :
    sigma (Real.sin U2) (Real.cos U2) (Real.sin U1) (Real.cos U1) (-lam) =
      sigma (Real.sin U1) (Real.cos U1) (Real.sin U2) (Real.cos U2) lam := by
  rw [sigma, sigma, sinsig_swap, cossig_swap]

/-- Helper: `sinα` is negated under swapping the endpoints and negating λ. -/
lemma sinalp_swap (U1 U2 lam : ℝ) :
    sinalp (Real.sin U2) (Real.cos U2) (Real.sin U1) (Real.cos U1) (-lam) =
      -sinalp (Real.sin U1) (Real.cos U1) (Real.sin U2) (Real.cos U2) lam := by
  rw [sinalp, sinalp, sinsig_swap, Real.sin_neg]
  rw [show Real.cos U2 * Real.cos U1 * -Real.sin lam =
    -(Real.cos U1 * Real.cos U2 * Real.sin lam) by ring, neg_div]

/-- Helper: `cos²α` is invariant under swapping the endpoints and negating λ. -/
lemma cos2alp_swap (U1 U2 lam : ℝ) :
    cos2alp (Real.sin U2) (Real.cos U2) (Real.sin U1) (Real.cos U1) (-lam) =
      cos2alp (Real.sin U1) (Real.cos U1) (Real.sin U2) (Real.cos U2) lam := by
  rw [cos2alp, cos2alp, sinalp_swap]
  ring

/-- Helper: `cos2σm` is invariant under swapping the endpoints and negating λ. -/
lemma cos2sigm_swap (U1 U2 lam : ℝ) :
    cos2sigm (Real.sin U2) (Real.cos U2) (Real.sin U1) (Real.cos U1) (-lam) =
      cos2sigm (Real.sin U1) (Real.cos U1) (Real.sin U2) (Real.cos U2) lam := by
  rw [cos2sigm, cos2sigm, cossig_swap, cos2alp_swap]
  ring_nf

/-- Helper: the λ update is negated under swapping the endpoints and
negating both `L` and λ. -/
lemma lamStep_swap (f U1 U2 L lam : ℝ) :
    lamStep f (Real.sin U2) (Real.cos U2) (Real.sin U1) (Real.cos U1) (-L) (-lam) =
      -lamStep f (Real.sin U1) (Real.cos U1) (Real.sin U2) (Real.cos U2) L lam := by
  rw [lamStep, lamStep, sinalp_swap, cos2alp_swap, sigma_swap, sinsig_swap,
    cossig_swap, cos2sigm_swap]
  ring

/-- Helper: the λ loop mirrors exactly under swapping the endpoints and
negating the longitude difference: the final λ is negated while the
convergence flag and the iteration count are unchanged. -/
lemma iterLam_swap (f U1 U2 L : ℝ) (n : Nat) (lam : ℝ) :
    iterLam f (Real.sin U2) (Real.cos U2) (Real.sin U1) (Real.cos U1) (-L) n (-lam) =
      (-(iterLam f (Real.sin U1) (Real.cos U1) (Real.sin U2) (Real.cos U2) L n lam).1,
        (iterLam f (Real.sin U1) (Real.cos U1) (Real.sin U2) (Real.cos U2) L n lam).2.1,
        (iterLam f (Real.sin U1) (Real.cos U1) (Real.sin U2) (Real.cos U2) L n lam).2.2) := by
  induction n generalizing lam with
  | zero => simp [iterLam]
  | succ n ih =>
    rw [iterLam, iterLam, lamStep_swap]
    have habs : |-lamStep f (Real.sin U1) (Real.cos U1) (Real.sin U2) (Real.cos U2) L lam - -lam| =
        |lamStep f (Real.sin U1) (Real.cos U1) (Real.sin U2) (Real.cos U2) L lam - lam| := by
      rw [show -lamStep f (Real.sin U1) (Real.cos U1) (Real.sin U2) (Real.cos U2) L lam - -lam =
        -(lamStep f (Real.sin U1) (Real.cos U1) (Real.sin U2) (Real.cos U2) L lam - lam) by ring,
        abs_neg]
    rw [habs]
    by_cases h : |lamStep f (Real.sin U1) (Real.cos U1) (Real.sin U2) (Real.cos U2) L lam - lam| < vtol
    · simp only [if_pos h]
    · simp only [if_neg h, ih (lamStep f (Real.sin U1) (Real.cos U1) (Real.sin U2) (Real.cos U2) L lam)]

/-- Helper: the geodesic distance is invariant under swapping the
endpoints and negating λ. -/
lemma invDistance_swap (a f U1 U2 lam : ℝ) :
    invDistance a f (Real.sin U2) (Real.cos U2) (Real.sin U1) (Real.cos U1) (-lam) =
      invDistance a f (Real.sin U1) (Real.cos U1) (Real.sin U2) (Real.cos U2) lam := by
  rw [invDistance, invDistance, cos2alp_swap, sigma_swap, sinsig_swap, cossig_swap,
    sin2sig_swap, cos2sigm_swap]

/-- Helper: the swapped initial bearing is the original final bearing with
both `atan2` arguments negated. -/
lemma alpha1_swap (U1 U2 lam : ℝ) :
    alpha1 (Real.sin U2) (Real.cos U2) (Real.sin U1) (Real.cos U1) (-lam) =
      atan2 (-(Real.cos U1 * Real.sin lam))
        (-(Real.cos U1 * Real.sin U2 * Real.cos lam - Real.sin U1 * Real.cos U2)) := by
  rw [alpha1, Real.sin_neg, Real.cos_neg]
  congr 1 <;> ring

/-- Helper: the swapped final bearing is the original initial bearing with
both `atan2` arguments negated. -/
lemma alpha2_swap (U1 U2 lam : ℝ) :
    alpha2 (Real.sin U2) (Real.cos U2) (Real.sin U1) (Real.cos U1) (-lam) =
      atan2 (-(Real.cos U2 * Real.sin lam))
        (-(Real.cos U1 * Real.sin U2 - Real.sin U1 * Real.cos U2 * Real.cos lam)) := by
  rw [alpha2, Real.sin_neg, Real.cos_neg]
  congr 1 <;> ring

/-- Helper: negating both arguments of `atan2` shifts the normalized
degree bearing by 180 modulo 360. -/
lemma bearing_neg_flip (y x : ℝ) (h : ¬(x = 0 ∧ y = 0)) :
    ∃ k : ℤ, norm360 (toDeg (atan2 y x)) - norm360 (toDeg (atan2 (-y) (-x))) =
      180 + 360 * k := by
  have hpi := Real.pi_pos
  have hz : (⟨x, y⟩ : ℂ) ≠ 0 := by
    intro h0
    rw [Complex.ext_iff] at h0
    exact h ⟨h0.1, h0.2⟩
  have hneg : (⟨-x, -y⟩ : ℂ) = -(⟨x, y⟩ : ℂ) := by
    apply Complex.ext <;> simp
  have hang : ((Complex.arg (-(⟨x, y⟩ : ℂ)) : ℝ) : Real.Angle) =
      ((Complex.arg (⟨x, y⟩ : ℂ) + π : ℝ) : Real.Angle) := by
    rw [Real.Angle.coe_add]
    exact Complex.arg_neg_coe_angle hz
  rw [Real.Angle.angle_eq_iff_two_pi_dvd_sub] at hang
  obtain ⟨k, hk⟩ := hang
  have hAB : toDeg (Complex.arg (⟨x, y⟩ : ℂ)) - toDeg (Complex.arg (-(⟨x, y⟩ : ℂ))) =
      -180 - 360 * k := by
    rw [toDeg, toDeg]
    field_simp
    linear_combination (-180 : ℝ) * hk
  refine ⟨-1 - k - (⌊toDeg (Complex.arg (⟨x, y⟩ : ℂ)) / 360⌋ -
    ⌊toDeg (Complex.arg (-(⟨x, y⟩ : ℂ))) / 360⌋), ?_⟩
  rw [atan2, atan2, hneg, norm360, norm360]
  push_cast
  linarith [hAB]

/-- Helper: a successful inverse core run mirrors under swapping the
endpoints and negating the longitude difference: equal distance, and the
swapped final bearing is the original initial bearing shifted by 180
modulo 360. -/
lemma invAux_swap (a f U1 U2 L : ℝ) (r : InverseResult)
    (h : invAux a f U1 U2 L = .ok r) :
    ∃ r', invAux a f U2 U1 (-L) = .ok r' ∧ r'.distance = r.distance ∧
      ∀ b1 b2, r.initialBearing = some b1 → r'.finalBearing = some b2 →
        ∃ k : ℤ, b1 - b2 = 180 + 360 * k := by
  simp only [invAux] at h ⊢
  by_cases hconv :
      (iterLam f (Real.sin U1) (Real.cos U1) (Real.sin U2) (Real.cos U2) L vcap L).2.1 = false
  · rw [if_pos hconv] at h
    exact absurd h (by simp)
  rw [if_neg hconv] at h
  by_cases hss : sin2sig (Real.sin U1) (Real.cos U1) (Real.sin U2) (Real.cos U2)
      (iterLam f (Real.sin U1) (Real.cos U1) (Real.sin U2) (Real.cos U2) L vcap L).1 = 0
  · rw [if_pos hss] at h
    exact absurd h (by simp)
  rw [if_neg hss] at h
  have hr : invResult a f (Real.sin U1) (Real.cos U1) (Real.sin U2) (Real.cos U2)
      (iterLam f (Real.sin U1) (Real.cos U1) (Real.sin U2) (Real.cos U2) L vcap L).1 = r :=
    Except.ok.inj h
  rw [iterLam_swap f U1 U2 L vcap L]
  rw [if_neg (by simpa using hconv)]
  rw [sin2sig_swap, if_neg hss]
  refine ⟨_, rfl, ?_, ?_⟩
  · rw [← hr, invResult, invResult]
    simp only
    rw [invDistance_swap]
  · intro b1 b2 hb1 hb2
    rw [← hr] at hb1
    rw [invResult] at hb1
    simp only [Option.some.injEq] at hb1
    rw [invResult] at hb2
    simp only [Option.some.injEq] at hb2
    rw [alpha2_swap] at hb2
    have hxy : ¬(Real.cos U1 * Real.sin U2 - Real.sin U1 * Real.cos U2 *
        Real.cos (iterLam f (Real.sin U1) (Real.cos U1) (Real.sin U2) (Real.cos U2) L vcap L).1 = 0 ∧
        Real.cos U2 * Real.sin
          (iterLam f (Real.sin U1) (Real.cos U1) (Real.sin U2) (Real.cos U2) L vcap L).1 = 0) := by
      rintro ⟨hx, hy⟩
      apply hss
      rw [sin2sig, hx, hy]
      ring
    obtain ⟨k, hk⟩ := bearing_neg_flip _ _ hxy
    refine ⟨k, ?_⟩
    rw [← hb1, ← hb2]
    rw [alpha1] at hb1 ⊢
    exact hk

/-- C4: on every pair where the Vincenty inverse succeeds, the solver is
symmetric: the reversed pair also succeeds with the same distance, and the
forward initial bearing and the reversed final bearing differ by 180
degrees modulo 360. -/
theorem inverse_symmetric (E : Ellipsoid) (p1 p2 : LatLon) (r : InverseResult)
    (h : inverse E p1 p2 = .ok r) :
    ∃ r', inverse E p2 p1 = .ok r' ∧ r'.distance = r.distance ∧
      ∀ b1 b2, r.initialBearing = some b1 → r'.finalBearing = some b2 →
        ∃ k : ℤ, b1 - b2 = 180 + 360 * k := by
  by_cases hc : p1.lat = p2.lat ∧ p1.lon = p2.lon
  · rw [inverse, if_pos hc] at h
    have hr : r = ⟨0, none, none⟩ := (Except.ok.inj h).symm
    refine ⟨⟨0, none, none⟩, ?_, by rw [hr], ?_⟩
    · rw [inverse, if_pos ⟨hc.1.symm, hc.2.symm⟩]
    · intro b1 b2 hb1 _
      rw [hr] at hb1
      exact absurd hb1 (by simp)
  · have hc' : ¬(p2.lat = p1.lat ∧ p2.lon = p1.lon) := fun hx => hc ⟨hx.1.symm, hx.2.symm⟩
    rw [inverse, if_neg hc] at h
    rw [inverse, if_neg hc']
    have hL : toRad (p1.lon - p2.lon) = -toRad (p2.lon - p1.lon) := by
      rw [toRad, toRad]
      ring
    rw [hL]
    exact invAux_swap E.a E.f _ _ _ r h

/-- Helper: `atan2(1, 0) = π/2`. -/
lemma atan2_one_zero : atan2 1 0 = π / 2 := by
  rw [atan2]
  have hI : (⟨0, 1⟩ : ℂ) = Complex.I := by apply Complex.ext <;> simp
  rw [hI, Complex.arg_I]

/-- Helper: a right angle is 90 degrees. -/
lemma toDeg_pi_div_two : toDeg (π / 2) = 90 := by
  rw [toDeg]
  field_simp
  ring

/-- Helper: 90 degrees is already normalized. -/
lemma norm360_90 : norm360 90 = 90 := by
  rw [norm360]
  have hf : ⌊(90 : ℝ) / 360⌋ = 0 := by
    apply Int.floor_eq_zero_iff.mpr
    constructor <;> norm_num
  rw [hf]
  norm_num

/-- Helper: concrete evaluation of the inverse on the unit sphere between
the equatorial points (0, 0) and (0, 90): a quarter turn eastward. -/
lemma inverse_equator_concrete :
    inverse ⟨1, 0⟩ ⟨0, 0⟩ ⟨0, 90⟩ = .ok ⟨π / 2, some 90, some 90⟩ := by
  have hne : ¬((⟨0, 0⟩ : LatLon).lat = (⟨0, 90⟩ : LatLon).lat ∧
      (⟨0, 0⟩ : LatLon).lon = (⟨0, 90⟩ : LatLon).lon) := by
    simp
  rw [inverse, if_neg hne]
  show invAux (1 : ℝ) 0 (reducedLat 0 (toRad 0)) (reducedLat 0 (toRad 0))
    (toRad ((90 : ℝ) - 0)) = .ok ⟨π / 2, some 90, some 90⟩
  have hrl : reducedLat 0 (toRad 0) = 0 := by
    rw [toRad, reducedLat]
    norm_num [Real.tan_zero, Real.arctan_zero]
  have hL : toRad ((90 : ℝ) - 0) = π / 2 := by
    rw [toRad]
    ring
  rw [hrl, hL]
  have hss0 : sin2sig 0 1 0 1 (π / 2) = 1 := by
    rw [sin2sig, Real.sin_pi_div_two, Real.cos_pi_div_two]
    ring
  have h1 : sinsig 0 1 0 1 (π / 2) = 1 := by
    rw [sinsig, hss0, Real.sqrt_one]
  have h2 : cossig 0 1 0 1 (π / 2) = 0 := by
    rw [cossig, Real.cos_pi_div_two]
    ring
  have h3 : sigma 0 1 0 1 (π / 2) = π / 2 := by
    rw [sigma, h1, h2, atan2_one_zero]
  have h4 : sinalp 0 1 0 1 (π / 2) = 1 := by
    rw [sinalp, h1, Real.sin_pi_div_two]
    norm_num
  have h5 : cos2alp 0 1 0 1 (π / 2) = 0 := by
    rw [cos2alp, h4]
    norm_num
  have h6 : cos2sigm 0 1 0 1 (π / 2) = 0 := by
    rw [cos2sigm, h2, h5]
    norm_num
  have h7 : usq 1 0 0 = 0 := by
    rw [usq]
    norm_num
  have h8 : bigA 0 = 1 := by
    rw [bigA]
    norm_num
  have h9 : bigB 0 = 0 := by
    rw [bigB]
    norm_num
  have h10 : invDistance 1 0 0 1 0 1 (π / 2) = π / 2 := by
    rw [invDistance, h5, h7, h8, h9, h3, deltaSig]
    norm_num
  have h11 : alpha1 0 1 0 1 (π / 2) = π / 2 := by
    rw [alpha1, Real.sin_pi_div_two, Real.cos_pi_div_two]
    norm_num [atan2_one_zero]
  have h12 : alpha2 0 1 0 1 (π / 2) = π / 2 := by
    rw [alpha2, Real.sin_pi_div_two, Real.cos_pi_div_two]
    norm_num [atan2_one_zero]
  simp only [invAux, Real.sin_zero, Real.cos_zero]
  have hcap : vcap = 99 + 1 := rfl
  rw [hcap, iterLam_sphere]
  simp only [if_neg (by simp : ¬(((π / 2 : ℝ), true, 1) : ℝ × Bool × Nat).2.1 = false)]
  rw [if_neg (by rw [hss0]; norm_num : ¬sin2sig 0 1 0 1 (π / 2) = 0)]
  rw [invResult, h10, h11, h12, toDeg_pi_div_two, norm360_90]

/-- Witness for C4 on the unit sphere between equatorial points (0,0) and
(0,90): forward initial bearing 90, reversed final bearing 270. -/
theorem inverse_symmetric_witness :
    inverse ⟨1, 0⟩ ⟨0, 0⟩ ⟨0, 90⟩ = .ok ⟨π / 2, some 90, some 90⟩ ∧
    (∃ r', inverse ⟨1, 0⟩ ⟨0, 90⟩ ⟨0, 0⟩ = .ok r' ∧
      r'.distance = (⟨π / 2, some 90, some 90⟩ : InverseResult).distance ∧
      ∀ b1 b2, (⟨π / 2, some 90, some 90⟩ : InverseResult).initialBearing = some b1 →
        r'.finalBearing = some b2 → ∃ k : ℤ, b1 - b2 = 180 + 360 * k) :=
  ⟨inverse_equator_concrete,
    inverse_symmetric ⟨1, 0⟩ ⟨0, 0⟩ ⟨0, 90⟩ ⟨π / 2, some 90, some 90⟩ inverse_equator_concrete⟩
